import Mathlib

/-!
Shallow embedding of `src/utils.py` (class `StockDataAnalyzer`).

The Python code manipulates pandas `DataFrame`s.  We model the fragment of
pandas that the code uses: a data frame is an optional index name, a list of
index labels, a list of column names, and a list of rows, where every cell is
an `Option Int` (`none` models a missing value / NaN; the numeric payloads are
only moved around, never computed with, so `Int` is an adequate carrier for
both dates and prices).

The external market-data provider (`yf.Ticker(...).history(start, end)`) is a
parameter: a stateful function from (state, ticker, start, end) to a response
`Except ε (List Bar) × state`, where a `Bar` carries the seven columns a
yfinance history frame has (`Open, High, Low, Close, Volume, Dividends,
Stock Splits`) indexed by `Date`.  A raised provider exception is the
`Except.error` case and propagates exactly as Python exceptions do.  The system
clock (`datetime.now()`) is a parameter `now : Int`, a day number; `strftime
('%Y-%m-%d')` is modelled by a real Gregorian conversion `formatDate`.
Methods pass the object state explicitly and return it, mirroring `self`.
-/

namespace StockAnalyzer

abbrev Val := Int

/-- The fragment of a pandas `DataFrame` used by the code: an optional index
name, index labels, column names and rows of optional cells (`none` = NaN). -/
structure DataFrame where
  indexName : Option String
  index : List (Option Val)
  columns : List String
  rows : List (List (Option Val))
deriving Repr, DecidableEq

/-- Position of a column label, as pandas column lookup. -/
def colIdx (cols : List String) (c : String) : Option Nat :=
  match cols with
  | [] => none
  | c0 :: rest => if c0 = c then some 0 else (colIdx rest c).map (· + 1)

/-- Cell of a row at a column position (missing position = NaN). -/
def cellAt (r : List (Option Val)) (i : Nat) : Option Val :=
  r.getD i none

/-- `df[[c₁, …, cₙ]]`: select columns, keeping the index. -/
def selectCols (df : DataFrame) (cs : List String) : DataFrame :=
  { indexName := df.indexName
    index := df.index
    columns := cs
    rows := df.rows.map (fun r => cs.map (fun c =>
      match colIdx df.columns c with
      | some i => cellAt r i
      | none => none)) }

/-- `df.reset_index()`: the index becomes the first ordinary column (named
after the index, `"index"` if it had no name) and the new index is the default
`RangeIndex 0, 1, 2, …`. -/
def reset_index (df : DataFrame) : DataFrame :=
  { indexName := none
    index := (List.range df.rows.length).map (fun n => some (Int.ofNat n))
    columns := df.indexName.getD "index" :: df.columns
    rows := (df.index.zip df.rows).map (fun p => p.1 :: p.2) }

/-- `df.columns = cs`: relabel the columns in place. -/
def withColumns (df : DataFrame) (cs : List String) : DataFrame :=
  { df with columns := cs }

/-- Value of the `key` column of a row (NaN when the column is absent). -/
def keyOf (cols : List String) (key : String) (r : List (Option Val)) : Option Val :=
  match colIdx cols key with
  | some i => cellAt r i
  | none => none

/-- The column labels other than the join key. -/
def nonKeyCols (cols : List String) (key : String) : List String :=
  cols.filter (fun c => c ≠ key)

/-- The cells of a row at the columns other than the join key. -/
def nonKeyCells (cols : List String) (key : String) (r : List (Option Val)) : List (Option Val) :=
  ((cols.zip r).filter (fun p => p.1 ≠ key)).map Prod.snd

/-- `pd.merge(left, right, on := key, how := "outer")`: left rows first, each
paired with every matching right row (or padded with NaN when no right row
matches), then the unmatched right rows, padded with NaN on the left columns
except the key; the result gets a fresh `RangeIndex`. -/
def merge_outer (left right : DataFrame) (key : String) : DataFrame :=
  let leftPart := left.rows.flatMap (fun lr =>
    let k := keyOf left.columns key lr
    let ms := right.rows.filter (fun rr => keyOf right.columns key rr == k)
    if ms.isEmpty then
      [lr ++ (nonKeyCols right.columns key).map (fun _ => (none : Option Val))]
    else
      ms.map (fun rr => lr ++ nonKeyCells right.columns key rr))
  let leftKeys := left.rows.map (keyOf left.columns key)
  let rightPart := (right.rows.filter
      (fun rr => !leftKeys.contains (keyOf right.columns key rr))).map
    (fun rr =>
      left.columns.map (fun c => if c = key then keyOf right.columns key rr else none)
        ++ nonKeyCells right.columns key rr)
  let allRows := leftPart ++ rightPart
  { indexName := none
    index := (List.range allRows.length).map (fun n => some (Int.ofNat n))
    columns := left.columns ++ nonKeyCols right.columns key
    rows := allRows }

/-- Cell order used by `sort_values`: ascending, NaN last. -/
def cellLE : Option Val → Option Val → Bool
  | some a, some b => a ≤ b
  | some _, none => true
  | none, some _ => false
  | none, none => true

/-- `df.sort_values(key)`: reorder the rows (labels travelling with them)
ascending by the `key` column. -/
def sort_values (df : DataFrame) (key : String) : DataFrame :=
  match colIdx df.columns key with
  | none => df
  | some i =>
    let pairs := (df.index.zip df.rows).mergeSort
      (fun p q => cellLE (cellAt p.2 i) (cellAt q.2 i))
    { df with index := pairs.map Prod.fst, rows := pairs.map Prod.snd }

/-- `df.set_index(key)`: the `key` column becomes the index and disappears
from the ordinary columns. -/
def set_index (df : DataFrame) (key : String) : DataFrame :=
  match colIdx df.columns key with
  | none => df
  | some i =>
    { indexName := some key
      index := df.rows.map (fun r => cellAt r i)
      columns := df.columns.eraseIdx i
      rows := df.rows.map (fun r => r.eraseIdx i) }

/-- One daily bar of the provider response, with the seven fields a yfinance
history frame carries besides its `Date` index. -/
structure Bar where
  date : Val
  Open : Val
  High : Val
  Low : Val
  Close : Val
  Volume : Val
  Dividends : Val
  StockSplits : Val
deriving Repr, DecidableEq

/-- The data frame `yf.Ticker(...).history(...)` returns for a list of bars:
indexed by `Date`, columns `Open, High, Low, Close, Volume, Dividends,
Stock Splits`, every cell present. -/
def historyFrame (bars : List Bar) : DataFrame :=
  { indexName := some "Date"
    index := bars.map (fun b => some b.date)
    columns := ["Open", "High", "Low", "Close", "Volume", "Dividends", "Stock Splits"]
    rows := bars.map (fun b =>
      [some b.Open, some b.High, some b.Low, some b.Close,
       some b.Volume, some b.Dividends, some b.StockSplits]) }

/-- Gregorian calendar date (year, month, day) of a day number, day 0 being
1970-01-01 (the civil-from-days algorithm). -/
def civilFromDays (z0 : Int) : Int × Int × Int :=
  let z : Int := z0 + 719468
  let era : Int := (if 0 ≤ z then z else z - 146096) / 146097
  let doe : Int := z - era * 146097
  let yoe : Int := (doe - doe / 1460 + doe / 36524 - doe / 146096) / 365
  let y : Int := yoe + era * 400
  let doy : Int := doe - (365 * yoe + yoe / 4 - yoe / 100)
  let mp : Int := (5 * doy + 2) / 153
  let d : Int := doy - (153 * mp + 2) / 5 + 1
  let m : Int := mp + (if mp < 10 then 3 else -9)
  (y + (if m ≤ 2 then 1 else 0), m, d)

def pad2 (n : Int) : String :=
  if n < 10 then "0" ++ toString n else toString n

def pad4 (n : Int) : String :=
  if n < 10 then "000" ++ toString n
  else if n < 100 then "00" ++ toString n
  else if n < 1000 then "0" ++ toString n
  else toString n

/-- `datetime.strftime('%Y-%m-%d')` of a day number. -/
def formatDate (z : Int) : String :=
  let c := civilFromDays z
  pad4 c.1 ++ "-" ++ pad2 c.2.1 ++ "-" ++ pad2 c.2.2

/-- Python's `s or d` for an optional string `s`: `None` and the empty string
are falsy and give `d`; any other string is returned itself. -/
def pyOr (s : Option String) (d : String) : String :=
  match s with
  | none => d
  | some s => if s = "" then d else s

/-- The `Dict[str, str]` returned by `_get_default_dates`. -/
structure DefaultDates where
  start_date : String
  end_date : String
deriving Repr, DecidableEq

/-- `StockDataAnalyzer._get_default_dates` at clock value `now` (a day
number): end = today, start = 365 days before today, both formatted. -/
def get_default_dates (now : Int) : DefaultDates :=
  { start_date := formatDate (now - 365), end_date := formatDate now }

/-- The date-range defaulting lines `start_date = start_date or
dates['start_date']; end_date = end_date or dates['end_date']` shared by
`get_stock_data` and `get_daily_volume` (the spec's `resolveRange`). -/
def resolveRange (now : Int) (start_date end_date : Option String) : String × String :=
  let dates := get_default_dates now
  (pyOr start_date dates.start_date, pyOr end_date dates.end_date)

/-- The object state: the ticker symbol stored by `__init__`. -/
structure StockDataAnalyzer where
  ticker_symbol : String
deriving Repr, DecidableEq

/-- The external provider: from its own state and (ticker, start, end),
either a bar list or a raised error, together with its next state. -/
abbrev Provider (σ ε : Type) : Type :=
  σ → String → String → String → Except ε (List Bar) × σ

/-- `get_stock_data`: resolve the range, fetch history, keep the four price
columns (the `Date` index stays the index). -/
def get_stock_data {σ ε : Type} (self : StockDataAnalyzer) (hist : Provider σ ε)
    (now : Int) (start_date end_date : Option String) (st : σ) :
    StockDataAnalyzer × σ × Except ε DataFrame :=
  let r := resolveRange now start_date end_date
  match hist st self.ticker_symbol r.1 r.2 with
  | (Except.error err, st1) => (self, st1, Except.error err)
  | (Except.ok bars, st1) =>
      (self, st1,
       Except.ok (selectCols (historyFrame bars) ["Open", "High", "Low", "Close"]))

/-- `get_daily_volume`: resolve the range, fetch history, keep the volume
column, reset the index and relabel the columns to `Date, Volume`. -/
def get_daily_volume {σ ε : Type} (self : StockDataAnalyzer) (hist : Provider σ ε)
    (now : Int) (start_date end_date : Option String) (st : σ) :
    StockDataAnalyzer × σ × Except ε DataFrame :=
  let r := resolveRange now start_date end_date
  match hist st self.ticker_symbol r.1 r.2 with
  | (Except.error err, st1) => (self, st1, Except.error err)
  | (Except.ok bars, st1) =>
      let volume_data := reset_index (selectCols (historyFrame bars) ["Volume"])
      (self, st1, Except.ok (withColumns volume_data ["Date", "Volume"]))

/-- `get_combined_data`: price fetch (then `reset_index`), volume fetch, outer
merge on `Date`, sort by `Date`, set `Date` as index.  An error in either
fetch short-circuits exactly as a raised Python exception would. -/
def get_combined_data {σ ε : Type} (self : StockDataAnalyzer) (hist : Provider σ ε)
    (now : Int) (start_date end_date : Option String) (st : σ) :
    StockDataAnalyzer × σ × Except ε DataFrame :=
  match get_stock_data self hist now start_date end_date st with
  | (self1, st1, Except.error err) => (self1, st1, Except.error err)
  | (self1, st1, Except.ok price) =>
    let price_data := reset_index price
    match get_daily_volume self1 hist now start_date end_date st1 with
    | (self2, st2, Except.error err) => (self2, st2, Except.error err)
    | (self2, st2, Except.ok volume_data) =>
      let merged_data := merge_outer price_data volume_data "Date"
      (self2, st2, Except.ok (set_index (sort_values merged_data "Date") "Date"))

/-- A provider that answers the k-th call (0-based) with the k-th listed
response (empty history past the end) — lets the two sub-fetches of
`get_combined_data` answer differently, as two real network calls can. -/
def histSeq {ε : Type} (responses : List (Except ε (List Bar))) : Provider Nat ε :=
  fun k _ _ _ => (responses.getD k (Except.ok []), k + 1)

/-! ## Names for the intermediate values inside `get_combined_data`

These abbreviations are what the pipeline of `get_combined_data` produces at
each stage when the price fetch answers `P` and the volume fetch answers `V`;
the lemmas below prove each equation. -/

/-- A row of `price_data` (price frame after `reset_index`). -/
def priceRow (b : Bar) : List (Option Val) :=
  [some b.date, some b.Open, some b.High, some b.Low, some b.Close]

/-- A row of `volume_data`. -/
def volRow (b : Bar) : List (Option Val) :=
  [some b.date, some b.Volume]

/-- `price_data`: the price frame after `reset_index()`. -/
def priceDF (P : List Bar) : DataFrame :=
  { indexName := none
    index := (List.range P.length).map (fun n => some (Int.ofNat n))
    columns := ["Date", "Open", "High", "Low", "Close"]
    rows := P.map priceRow }

/-- `volume_data`: the relabelled volume frame. -/
def volDF (V : List Bar) : DataFrame :=
  { indexName := none
    index := (List.range V.length).map (fun n => some (Int.ofNat n))
    columns := ["Date", "Volume"]
    rows := V.map volRow }

/-- Merged row for a date present in both series. -/
def matchedRow (p v : Bar) : List (Option Val) :=
  [some p.date, some p.Open, some p.High, some p.Low, some p.Close, some v.Volume]

/-- Merged row for a date present only in the price series (volume NaN). -/
def priceOnlyRow (p : Bar) : List (Option Val) :=
  [some p.date, some p.Open, some p.High, some p.Low, some p.Close, none]

/-- Merged row for a date present only in the volume series (prices NaN). -/
def volOnlyRow (v : Bar) : List (Option Val) :=
  [some v.date, none, none, none, none, some v.Volume]

/-- `merged_data`: the outer merge on `Date` inside `get_combined_data`. -/
def mergedOf (P V : List Bar) : DataFrame :=
  merge_outer (priceDF P) (volDF V) "Date"

/-- The comparison `sort_values` uses on (label, row) pairs: by the `Date`
column, which sits at position 0 of the merged frame. -/
def pairLE (p q : Option Val × List (Option Val)) : Bool :=
  cellLE (cellAt p.2 0) (cellAt q.2 0)

/-- The (label, row) pairs of the merged frame, sorted by date. -/
def sortedPairsOf (P V : List Bar) : List (Option Val × List (Option Val)) :=
  ((mergedOf P V).index.zip (mergedOf P V).rows).mergeSort pairLE

/-- The merged rows sorted by date. -/
def sortedRowsOf (P V : List Bar) : List (List (Option Val)) :=
  (sortedPairsOf P V).map Prod.snd

/-! ## Frame helpers: the methods return `self` unchanged -/

theorem get_stock_data_fst {σ ε : Type} (self : StockDataAnalyzer) (hist : Provider σ ε)
    (now : Int) (start_date end_date : Option String) (st : σ) :
    (get_stock_data self hist now start_date end_date st).1 = self := by
  simp only [get_stock_data]
  split <;> rfl

theorem get_daily_volume_fst {σ ε : Type} (self : StockDataAnalyzer) (hist : Provider σ ε)
    (now : Int) (start_date end_date : Option String) (st : σ) :
    (get_daily_volume self hist now start_date end_date st).1 = self := by
  simp only [get_daily_volume]
  split <;> rfl

theorem get_combined_data_fst {σ ε : Type} (self : StockDataAnalyzer) (hist : Provider σ ε)
    (now : Int) (start_date end_date : Option String) (st : σ) :
    (get_combined_data self hist now start_date end_date st).1 = self := by
  simp only [get_combined_data]
  split
  · next self1 st1 err heq =>
    have h1 := congrArg (fun x => x.1) heq
    simpa [get_stock_data_fst] using h1.symm
  · next self1 st1 price heq =>
    have h1 := congrArg (fun x => x.1) heq
    have h1 : self1 = self := by
      simpa [get_stock_data_fst] using h1.symm
    subst h1
    split
    · next self2 st2 err heq2 =>
      have h2 := congrArg (fun x => x.1) heq2
      simpa [get_daily_volume_fst] using h2.symm
    · next self2 st2 vol heq2 =>
      have h2 := congrArg (fun x => x.1) heq2
      simpa [get_daily_volume_fst] using h2.symm

/-! ## Claim theorems -/

/-- C3: with neither bound supplied, the resolved range is
(end − 365 days, end), where end is the calendar date of the clock value at
call time: `_get_default_dates` formats the clock's day for the end and the
day 365 before it for the start, and `resolveRange` substitutes both. -/
theorem default_range_is_trailing_365_days (now : Int) :
    resolveRange now none none = (formatDate (now - 365), formatDate now) ∧
    get_default_dates now =
      { start_date := formatDate (now - 365), end_date := formatDate now } :=
  ⟨rfl, rfl⟩

/-- C6: a provider answering every fetch with an empty history gives an empty
price series from `get_stock_data`, an empty volume series from
`get_daily_volume`, and an empty combined result from `get_combined_data` —
all three return `Except.ok` (no error), with no rows and no index entries. -/
theorem empty_response_yields_empty_series {ε : Type} (self : StockDataAnalyzer)
    (now : Int) (start_date end_date : Option String) (k : Nat) :
    (get_stock_data self (histSeq ([] : List (Except ε (List Bar)))) now
        start_date end_date k).2.2 =
      Except.ok { indexName := some "Date", index := [],
                  columns := ["Open", "High", "Low", "Close"], rows := [] } ∧
    (get_daily_volume self (histSeq ([] : List (Except ε (List Bar)))) now
        start_date end_date k).2.2 =
      Except.ok { indexName := none, index := [],
                  columns := ["Date", "Volume"], rows := [] } ∧
    (get_combined_data self (histSeq ([] : List (Except ε (List Bar)))) now
        start_date end_date k).2.2 =
      Except.ok { indexName := some "Date", index := [],
                  columns := ["Open", "High", "Low", "Close", "Volume"], rows := [] } := by
  refine ⟨rfl, rfl, ?_⟩
  with_unfolding_all rfl

/-- C8: if the first sub-fetch of `get_combined_data` (the price fetch) raises
a provider error, or the first succeeds and the second (the volume fetch)
raises, `get_combined_data` returns exactly that error — unmodified, with no
partial result — whatever data the other fetch would have produced. -/
theorem get_combined_data_propagates_error {ε : Type} (self : StockDataAnalyzer)
    (err : ε) (P V : List Bar) (now : Int) (start_date end_date : Option String) :
    (get_combined_data self (histSeq [Except.error err, Except.ok V]) now
        start_date end_date 0).2.2 = Except.error err ∧
    (get_combined_data self (histSeq [Except.ok P, Except.error err]) now
        start_date end_date 0).2.2 = Except.error err :=
  ⟨rfl, rfl⟩

/-- C7: each operation is a pure function of the provider's data and its
arguments: two calls with the same object, clock, explicit arguments and
provider state, against providers that answer every request identically,
return identical results (output, provider state and object alike). -/
theorem operations_are_deterministic {σ ε : Type} (self : StockDataAnalyzer)
    (p1 p2 : Provider σ ε) (now : Int) (start_date end_date : Option String) (st : σ)
    (h : ∀ st0 t a b, p1 st0 t a b = p2 st0 t a b) :
    get_stock_data self p1 now start_date end_date st =
      get_stock_data self p2 now start_date end_date st ∧
    get_daily_volume self p1 now start_date end_date st =
      get_daily_volume self p2 now start_date end_date st ∧
    get_combined_data self p1 now start_date end_date st =
      get_combined_data self p2 now start_date end_date st := by
  have hp : p1 = p2 := funext fun a => funext fun b => funext fun c => funext fun d => h a b c d
  subst hp
  exact ⟨rfl, rfl, rfl⟩

theorem operations_are_deterministic_witness :
    get_stock_data ⟨"TSLA"⟩ (histSeq ([] : List (Except Unit (List Bar)))) 0 none none 0 =
      get_stock_data ⟨"TSLA"⟩ (histSeq []) 0 none none 0 ∧
    get_daily_volume ⟨"TSLA"⟩ (histSeq ([] : List (Except Unit (List Bar)))) 0 none none 0 =
      get_daily_volume ⟨"TSLA"⟩ (histSeq []) 0 none none 0 ∧
    get_combined_data ⟨"TSLA"⟩ (histSeq ([] : List (Except Unit (List Bar)))) 0 none none 0 =
      get_combined_data ⟨"TSLA"⟩ (histSeq []) 0 none none 0 :=
  operations_are_deterministic ⟨"TSLA"⟩ (histSeq []) (histSeq []) 0 none none 0
    (fun _ _ _ _ => rfl)

/-- C9: the ticker identifier is stored by `__init__` and no operation
mutates it: after any call to `get_stock_data`, `get_daily_volume` or
`get_combined_data`, with any provider, clock and arguments, the
`ticker_symbol` field equals its value before the call. -/
theorem ticker_symbol_immutable {σ ε : Type} (self : StockDataAnalyzer)
    (hist : Provider σ ε) (now : Int) (start_date end_date : Option String)
    (st : σ) (t : String) :
    (StockDataAnalyzer.mk t).ticker_symbol = t ∧
    (get_stock_data self hist now start_date end_date st).1.ticker_symbol =
      self.ticker_symbol ∧
    (get_daily_volume self hist now start_date end_date st).1.ticker_symbol =
      self.ticker_symbol ∧
    (get_combined_data self hist now start_date end_date st).1.ticker_symbol =
      self.ticker_symbol := by
  refine ⟨rfl, ?_, ?_, ?_⟩
  · rw [get_stock_data_fst]
  · rw [get_daily_volume_fst]
  · rw [get_combined_data_fst]

/-- C2 counterexample: a supplied empty start string is NOT returned or
forwarded verbatim — `start_date or dates['start_date']` replaces it by the
computed default (here, clock day 20086 = 2024-12-29, so the default start is
2023-12-30), as a provider that reports the range it receives exhibits. -/
theorem supplied_empty_string_not_forwarded :
    resolveRange 20086 (some "") (some "2024-12-29") = ("2023-12-30", "2024-12-29") ∧
    ("2023-12-30", "2024-12-29") ≠ (("" : String), "2024-12-29") ∧
    (get_stock_data ⟨"TSLA"⟩ ((fun st _ a b => (Except.error (a, b), st)) :
        Provider Unit (String × String)) 20086 (some "") (some "2024-12-29") ()).2.2 =
      Except.error ("2023-12-30", "2024-12-29") :=
  ⟨by with_unfolding_all rfl, by decide, by with_unfolding_all rfl⟩

/-- C2 (amended): for every pair of supplied NON-EMPTY date strings (s, e),
range resolution returns (s, e) unchanged and verbatim, and `get_stock_data`
and `get_daily_volume` hand exactly (ticker, s, e) to the provider, their
outputs being the projections of whatever that single call returns.  (The
original claim quantified over every string; a supplied empty string is
falsy for Python's `or` and is replaced by the default instead.) -/
theorem nonempty_range_passed_verbatim {σ ε : Type} (self : StockDataAnalyzer)
    (hist : Provider σ ε) (now : Int) (s e : String) (st : σ)
    (hs : s ≠ "") (he : e ≠ "") :
    resolveRange now (some s) (some e) = (s, e) ∧
    get_stock_data self hist now (some s) (some e) st =
      (self, (hist st self.ticker_symbol s e).2,
       Except.map
         (fun bars => selectCols (historyFrame bars) ["Open", "High", "Low", "Close"])
         (hist st self.ticker_symbol s e).1) ∧
    get_daily_volume self hist now (some s) (some e) st =
      (self, (hist st self.ticker_symbol s e).2,
       Except.map
         (fun bars =>
           withColumns (reset_index (selectCols (historyFrame bars) ["Volume"]))
             ["Date", "Volume"])
         (hist st self.ticker_symbol s e).1) := by
  have hr : resolveRange now (some s) (some e) = (s, e) := by
    simp [resolveRange, pyOr, hs, he]
  refine ⟨hr, ?_, ?_⟩
  · simp only [get_stock_data, hr]
    cases hh : hist st self.ticker_symbol s e with
    | mk res st1 => cases res <;> rfl
  · simp only [get_daily_volume, hr]
    cases hh : hist st self.ticker_symbol s e with
    | mk res st1 => cases res <;> rfl

theorem nonempty_range_passed_verbatim_witness :
    resolveRange 20086 (some "2024-05-01") (some "2024-12-29") =
      ("2024-05-01", "2024-12-29") ∧
    get_stock_data ⟨"TSLA"⟩ (histSeq ([] : List (Except Unit (List Bar)))) 20086
        (some "2024-05-01") (some "2024-12-29") 0 =
      (⟨"TSLA"⟩, (histSeq ([] : List (Except Unit (List Bar))) 0 "TSLA" "2024-05-01" "2024-12-29").2,
       Except.map
         (fun bars => selectCols (historyFrame bars) ["Open", "High", "Low", "Close"])
         (histSeq ([] : List (Except Unit (List Bar))) 0 "TSLA" "2024-05-01" "2024-12-29").1) ∧
    get_daily_volume ⟨"TSLA"⟩ (histSeq ([] : List (Except Unit (List Bar)))) 20086
        (some "2024-05-01") (some "2024-12-29") 0 =
      (⟨"TSLA"⟩, (histSeq ([] : List (Except Unit (List Bar))) 0 "TSLA" "2024-05-01" "2024-12-29").2,
       Except.map
         (fun bars =>
           withColumns (reset_index (selectCols (historyFrame bars) ["Volume"]))
             ["Date", "Volume"])
         (histSeq ([] : List (Except Unit (List Bar))) 0 "TSLA" "2024-05-01" "2024-12-29").1) :=
  nonempty_range_passed_verbatim ⟨"TSLA"⟩ (histSeq []) 20086 "2024-05-01" "2024-12-29" 0
    (by decide) (by decide)

/-- C10: a supplied empty string for start or end is falsy for Python's `or`,
so it is treated exactly as an absent argument: the computed default date is
used in its place (both in `resolveRange` and through `get_stock_data` /
`get_daily_volume`), while every non-empty supplied string resolves to
itself. -/
theorem empty_string_treated_as_absent {σ ε : Type} (self : StockDataAnalyzer)
    (hist : Provider σ ε) (now : Int) (sOpt eOpt : Option String) (st : σ)
    (s : String) (hs : s ≠ "") :
    resolveRange now (some "") eOpt = resolveRange now none eOpt ∧
    resolveRange now sOpt (some "") = resolveRange now sOpt none ∧
    (resolveRange now (some "") eOpt).1 = (get_default_dates now).start_date ∧
    (resolveRange now sOpt (some "")).2 = (get_default_dates now).end_date ∧
    (resolveRange now (some s) eOpt).1 = s ∧
    (resolveRange now sOpt (some s)).2 = s ∧
    get_stock_data self hist now (some "") eOpt st =
      get_stock_data self hist now none eOpt st ∧
    get_daily_volume self hist now (some "") eOpt st =
      get_daily_volume self hist now none eOpt st := by
  refine ⟨by with_unfolding_all rfl, by with_unfolding_all rfl,
    by with_unfolding_all rfl, by with_unfolding_all rfl, ?_, ?_,
    by with_unfolding_all rfl, by with_unfolding_all rfl⟩
  · simp [resolveRange, pyOr, hs]
  · simp [resolveRange, pyOr, hs]

theorem empty_string_treated_as_absent_witness :
    resolveRange 20086 (some "") none = resolveRange 20086 none none ∧
    resolveRange 20086 none (some "") = resolveRange 20086 none none ∧
    (resolveRange 20086 (some "") none).1 = (get_default_dates 20086).start_date ∧
    (resolveRange 20086 none (some "")).2 = (get_default_dates 20086).end_date ∧
    (resolveRange 20086 (some "2024-05-01") none).1 = "2024-05-01" ∧
    (resolveRange 20086 none (some "2024-05-01")).2 = "2024-05-01" ∧
    get_stock_data ⟨"TSLA"⟩ (histSeq ([] : List (Except Unit (List Bar)))) 20086
        (some "") none 0 =
      get_stock_data ⟨"TSLA"⟩ (histSeq ([] : List (Except Unit (List Bar)))) 20086
        none none 0 ∧
    get_daily_volume ⟨"TSLA"⟩ (histSeq ([] : List (Except Unit (List Bar)))) 20086
        (some "") none 0 =
      get_daily_volume ⟨"TSLA"⟩ (histSeq ([] : List (Except Unit (List Bar)))) 20086
        none none 0 :=
  empty_string_treated_as_absent ⟨"TSLA"⟩ (histSeq []) 20086 none none 0
    "2024-05-01" (by decide)

/-- C4: for every provider response R, `get_stock_data` keeps exactly the
`Date` index and the four fields Open, High, Low, Close — dropping Volume,
Dividends and Stock Splits — with one output row per response row, in the
same order. -/
theorem get_stock_data_projects_ohlc {σ ε : Type} (self : StockDataAnalyzer)
    (hist : Provider σ ε) (now : Int) (start_date end_date : Option String)
    (st st1 : σ) (R : List Bar)
    (h : hist st self.ticker_symbol (resolveRange now start_date end_date).1
           (resolveRange now start_date end_date).2 = (Except.ok R, st1)) :
    (get_stock_data self hist now start_date end_date st).2.2 =
      Except.ok { indexName := some "Date",
                  index := R.map (fun b => some b.date),
                  columns := ["Open", "High", "Low", "Close"],
                  rows := R.map (fun b =>
                    [some b.Open, some b.High, some b.Low, some b.Close]) } := by
  simp only [get_stock_data, h]
  simp only [selectCols, historyFrame, List.map_map]
  rfl

theorem get_stock_data_projects_ohlc_witness :
    (get_stock_data ⟨"TSLA"⟩
        (histSeq [Except.ok [⟨1, 2, 3, 4, 5, 6, 7, 8⟩]] : Provider Nat Unit)
        20086 (some "2024-05-01") (some "2024-12-29") 0).2.2 =
      Except.ok { indexName := some "Date", index := [some 1],
                  columns := ["Open", "High", "Low", "Close"],
                  rows := [[some 2, some 3, some 4, some 5]] } :=
  get_stock_data_projects_ohlc ⟨"TSLA"⟩ _ 20086 (some "2024-05-01")
    (some "2024-12-29") 0 1 [⟨1, 2, 3, 4, 5, 6, 7, 8⟩] rfl

/-- C5 counterexample: the volume series is NOT indexed by date —
`get_daily_volume` calls `reset_index()`, so `Date` is an ordinary column,
the index is the default 0, 1, 2, … and carries no name. -/
theorem get_daily_volume_not_date_indexed :
    (get_daily_volume ⟨"TSLA"⟩
        (histSeq [Except.ok [⟨1, 2, 3, 4, 5, 6, 7, 8⟩]] : Provider Nat Unit)
        20086 (some "2024-05-01") (some "2024-12-29") 0).2.2 =
      Except.ok { indexName := none, index := [some 0],
                  columns := ["Date", "Volume"], rows := [[some 1, some 6]] } ∧
    (none : Option String) ≠ some "Date" :=
  ⟨by with_unfolding_all rfl, by decide⟩

/-- C5 (amended): for every provider response R, `get_daily_volume` output
contains exactly the fields Date and Volume per row, the date field renamed
consistently to `Date`, in response order — but the series is NOT indexed by
date: the index is reset to the default integer range and `Date` is an
ordinary column.  (The original claim's final conjunct said the result is
indexed by date.) -/
theorem get_daily_volume_fields {σ ε : Type} (self : StockDataAnalyzer)
    (hist : Provider σ ε) (now : Int) (start_date end_date : Option String)
    (st st1 : σ) (R : List Bar)
    (h : hist st self.ticker_symbol (resolveRange now start_date end_date).1
           (resolveRange now start_date end_date).2 = (Except.ok R, st1)) :
    (get_daily_volume self hist now start_date end_date st).2.2 =
      Except.ok { indexName := none,
                  index := (List.range R.length).map (fun n => some (Int.ofNat n)),
                  columns := ["Date", "Volume"],
                  rows := R.map (fun b => [some b.date, some b.Volume]) } := by
  simp only [get_daily_volume, h]
  simp only [withColumns, reset_index, selectCols, historyFrame,
    List.map_map, List.zip_map', List.length_map]
  rfl

theorem get_daily_volume_fields_witness :
    (get_daily_volume ⟨"TSLA"⟩
        (histSeq [Except.ok [⟨1, 2, 3, 4, 5, 6, 7, 8⟩]] : Provider Nat Unit)
        20086 (some "2024-05-01") (some "2024-12-29") 0).2.2 =
      Except.ok { indexName := none, index := [some 0],
                  columns := ["Date", "Volume"], rows := [[some 1, some 6]] } :=
  get_daily_volume_fields ⟨"TSLA"⟩ _ 20086 (some "2024-05-01")
    (some "2024-12-29") 0 1 [⟨1, 2, 3, 4, 5, 6, 7, 8⟩] rfl

/-! ## The stages of `get_combined_data` -/

theorem isEmpty_map {α β : Type} (f : α → β) (l : List α) :
    (l.map f).isEmpty = l.isEmpty := by
  cases l <;> rfl

theorem price_data_eq (P : List Bar) :
    reset_index (selectCols (historyFrame P) ["Open", "High", "Low", "Close"]) =
      priceDF P := by
  simp only [reset_index, selectCols, historyFrame, priceDF, priceRow,
    List.map_map, List.zip_map', List.length_map]
  rfl

theorem volume_data_eq (V : List Bar) :
    withColumns (reset_index (selectCols (historyFrame V) ["Volume"])) ["Date", "Volume"] =
      volDF V := by
  simp only [withColumns, reset_index, selectCols, historyFrame, volDF, volRow,
    List.map_map, List.zip_map', List.length_map]
  rfl

theorem merged_rows_eq (P V : List Bar) :
    (mergedOf P V).rows =
      (P.flatMap (fun p =>
        if (V.filter (fun v => (some v.date : Option Val) == some p.date)).isEmpty then
          [priceOnlyRow p]
        else
          (V.filter (fun v => (some v.date : Option Val) == some p.date)).map
            (matchedRow p))) ++
      ((V.filter (fun v =>
          !(P.map (fun b => (some b.date : Option Val))).contains (some v.date))).map
        volOnlyRow) := by
  simp only [mergedOf, merge_outer, priceDF, volDF, List.flatMap_map, List.filter_map,
    List.map_map, isEmpty_map]
  rfl

theorem mem_merged_rows {P V : List Bar} {r : List (Option Val)} :
    r ∈ (mergedOf P V).rows ↔
      (∃ p, p ∈ P ∧ (∀ v ∈ V, v.date ≠ p.date) ∧ r = priceOnlyRow p) ∨
      (∃ p v, p ∈ P ∧ v ∈ V ∧ v.date = p.date ∧ r = matchedRow p v) ∨
      (∃ v, v ∈ V ∧ (∀ p ∈ P, p.date ≠ v.date) ∧ r = volOnlyRow v) := by
  rw [merged_rows_eq]
  constructor
  · intro hr
    rcases List.mem_append.mp hr with hL | hR
    · rcases List.mem_flatMap.mp hL with ⟨p, hp, hin⟩
      by_cases hc :
          (V.filter (fun v => (some v.date : Option Val) == some p.date)).isEmpty = true
      · rw [if_pos hc] at hin
        left
        refine ⟨p, hp, ?_, by simpa using hin⟩
        intro v hv hvd
        have hvf : v ∈ V.filter (fun v => (some v.date : Option Val) == some p.date) :=
          List.mem_filter.mpr ⟨hv, by simp [hvd]⟩
        rw [List.isEmpty_iff.mp hc] at hvf
        simp at hvf
      · rw [if_neg hc] at hin
        rcases List.mem_map.mp hin with ⟨v, hvf, heq⟩
        have hvf2 := List.mem_filter.mp hvf
        right; left
        exact ⟨p, v, hp, hvf2.1, by simpa using hvf2.2, heq.symm⟩
    · rcases List.mem_map.mp hR with ⟨v, hvf, heq⟩
      have hvf2 := List.mem_filter.mp hvf
      right; right
      refine ⟨v, hvf2.1, ?_, heq.symm⟩
      intro p hp hpd
      have h2 := hvf2.2
      simp only [Bool.not_eq_eq_eq_not, Bool.not_true, List.contains_eq_any_beq] at h2
      have : (P.map (fun b => (some b.date : Option Val))).contains (some v.date) = true := by
        simp only [List.contains_eq_any_beq]
        simp only [List.any_eq_true, List.mem_map]
        exact ⟨some p.date, ⟨p, hp, rfl⟩, by simp [hpd]⟩
      rw [List.contains_eq_any_beq] at this
      rw [this] at h2
      cases h2
  · intro h
    rcases h with ⟨p, hp, hnov, rfl⟩ | ⟨p, v, hp, hv, hdd, rfl⟩ | ⟨v, hv, hnop, rfl⟩
    · refine List.mem_append.mpr (Or.inl (List.mem_flatMap.mpr ⟨p, hp, ?_⟩))
      have hc : (V.filter (fun v => (some v.date : Option Val) == some p.date)) = [] :=
        List.filter_eq_nil_iff.mpr (fun v hv => by simp [hnov v hv])
      rw [if_pos (by rw [hc]; rfl)]
      exact List.mem_singleton.mpr rfl
    · refine List.mem_append.mpr (Or.inl (List.mem_flatMap.mpr ⟨p, hp, ?_⟩))
      have hvf : v ∈ V.filter (fun v => (some v.date : Option Val) == some p.date) :=
        List.mem_filter.mpr ⟨hv, by simp [hdd]⟩
      have hne : V.filter (fun v => (some v.date : Option Val) == some p.date) ≠ [] :=
        List.ne_nil_of_mem hvf
      rw [if_neg (fun h => hne (List.isEmpty_iff.mp h))]
      exact List.mem_map_of_mem _ hvf
    · refine List.mem_append.mpr (Or.inr ?_)
      refine List.mem_map_of_mem _ (List.mem_filter.mpr ⟨hv, ?_⟩)
      have hnm : some v.date ∉ P.map (fun b => (some b.date : Option Val)) := by
        intro hmem
        rcases List.mem_map.mp hmem with ⟨p, hp, hpe⟩
        exact hnop p hp (by simpa using hpe)
      simpa using hnm

theorem merged_rows_key_coverage (P V : List Bar) :
    (∀ p ∈ P, ∃ r ∈ (mergedOf P V).rows, cellAt r 0 = some p.date) ∧
    (∀ v ∈ V, ∃ r ∈ (mergedOf P V).rows, cellAt r 0 = some v.date) := by
  constructor
  · intro p hp
    by_cases hc : ∃ v ∈ V, v.date = p.date
    · rcases hc with ⟨v, hv, hd⟩
      exact ⟨matchedRow p v,
        mem_merged_rows.mpr (Or.inr (Or.inl ⟨p, v, hp, hv, hd, rfl⟩)), rfl⟩
    · push_neg at hc
      exact ⟨priceOnlyRow p,
        mem_merged_rows.mpr (Or.inl ⟨p, hp, hc, rfl⟩), rfl⟩
  · intro v hv
    by_cases hc : ∃ p ∈ P, p.date = v.date
    · rcases hc with ⟨p, hp, hd⟩
      refine ⟨matchedRow p v,
        mem_merged_rows.mpr (Or.inr (Or.inl ⟨p, v, hp, hv, hd.symm, rfl⟩)), ?_⟩
      show some p.date = some v.date
      rw [hd]
    · push_neg at hc
      exact ⟨volOnlyRow v,
        mem_merged_rows.mpr (Or.inr (Or.inr ⟨v, hv, hc, rfl⟩)), rfl⟩

theorem sortedRowsOf_perm (P V : List Bar) :
    (sortedRowsOf P V).Perm (mergedOf P V).rows := by
  have hp : (sortedPairsOf P V).Perm ((mergedOf P V).index.zip (mergedOf P V).rows) :=
    List.mergeSort_perm _ _
  have hlen : (mergedOf P V).rows.length ≤ (mergedOf P V).index.length := by
    simp [mergedOf, merge_outer, List.length_map, List.length_range]
  have hmap := hp.map Prod.snd
  rw [List.map_snd_zip _ _ hlen] at hmap
  exact hmap

theorem mem_sortedRows {P V : List Bar} {r : List (Option Val)} :
    r ∈ sortedRowsOf P V ↔ r ∈ (mergedOf P V).rows :=
  (sortedRowsOf_perm P V).mem_iff

theorem cellLE_trans (a b c : Option Val) :
    cellLE a b = true → cellLE b c = true → cellLE a c = true := by
  cases a <;> cases b <;> cases c <;> simp [cellLE]
  exact fun h1 h2 => le_trans h1 h2

theorem cellLE_total (a b : Option Val) : (cellLE a b || cellLE b a) = true := by
  cases a <;> cases b <;> simp [cellLE]
  exact le_total _ _

theorem pairLE_trans (a b c : Option Val × List (Option Val)) :
    pairLE a b = true → pairLE b c = true → pairLE a c = true :=
  fun hab hbc => cellLE_trans _ _ _ hab hbc

theorem pairLE_total (a b : Option Val × List (Option Val)) :
    (pairLE a b || pairLE b a) = true :=
  cellLE_total _ _

theorem sortedPairsOf_pairwise (P V : List Bar) :
    (sortedPairsOf P V).Pairwise (fun p q => pairLE p q = true) := by
  simp only [sortedPairsOf]
  exact List.sorted_mergeSort pairLE_trans pairLE_total _

theorem cellAt_priceOnlyRow (p : Bar) : cellAt (priceOnlyRow p) 0 = some p.date := rfl

theorem cellAt_matchedRow (p v : Bar) : cellAt (matchedRow p v) 0 = some p.date := rfl

theorem cellAt_volOnlyRow (v : Bar) : cellAt (volOnlyRow v) 0 = some v.date := rfl

theorem eraseIdx_priceOnlyRow (p : Bar) :
    (priceOnlyRow p).eraseIdx 0 =
      [some p.Open, some p.High, some p.Low, some p.Close, none] := rfl

theorem eraseIdx_matchedRow (p v : Bar) :
    (matchedRow p v).eraseIdx 0 =
      [some p.Open, some p.High, some p.Low, some p.Close, some v.Volume] := rfl

theorem eraseIdx_volOnlyRow (v : Bar) :
    (volOnlyRow v).eraseIdx 0 = [none, none, none, none, some v.Volume] := rfl

theorem combined_frame_eq (self : StockDataAnalyzer) (P V : List Bar)
    (now : Int) (start_date end_date : Option String) :
    (get_combined_data self (histSeq [Except.ok P, Except.ok V] : Provider Nat Unit)
        now start_date end_date 0).2.2 =
      Except.ok { indexName := some "Date",
                  index := (sortedRowsOf P V).map (fun r => cellAt r 0),
                  columns := ["Open", "High", "Low", "Close", "Volume"],
                  rows := (sortedRowsOf P V).map (fun r => r.eraseIdx 0) } := by
  have h1 : (get_combined_data self (histSeq [Except.ok P, Except.ok V] : Provider Nat Unit)
        now start_date end_date 0).2.2 =
      Except.ok (set_index (sort_values (merge_outer
        (reset_index (selectCols (historyFrame P) ["Open", "High", "Low", "Close"]))
        (withColumns (reset_index (selectCols (historyFrame V) ["Volume"]))
          ["Date", "Volume"])
        "Date") "Date") "Date") := by
    with_unfolding_all rfl
  rw [h1, price_data_eq, volume_data_eq]
  with_unfolding_all rfl

/-- C1: with the price fetch answering `P` and the volume fetch answering `V`,
`get_combined_data` returns the full outer join of the two series on the date
key: date is the index (not an ordinary column), the ordinary columns are
exactly Open, High, Low, Close, Volume, the set of index dates is exactly the
union of the dates of `P` and `V`, the index is sorted ascending, and each
row has its price fields populated and volume missing for a date only in `P`,
its volume populated and prices missing for a date only in `V`, and all five
fields populated for a date in both. -/
theorem get_combined_data_outer_join (self : StockDataAnalyzer) (P V : List Bar)
    (now : Int) (start_date end_date : Option String) :
    ∃ df : DataFrame,
      (get_combined_data self (histSeq [Except.ok P, Except.ok V] : Provider Nat Unit)
          now start_date end_date 0).2.2 = Except.ok df ∧
      df.indexName = some "Date" ∧
      df.columns = ["Open", "High", "Low", "Close", "Volume"] ∧
      (∀ d : Val, some d ∈ df.index ↔ d ∈ P.map Bar.date ∨ d ∈ V.map Bar.date) ∧
      df.index.Pairwise (fun x y => cellLE x y = true) ∧
      df.index.length = df.rows.length ∧
      (∀ q ∈ df.index.zip df.rows,
        (q.1 ∈ P.map (fun b => (some b.date : Option Val)) →
         q.1 ∉ V.map (fun b => (some b.date : Option Val)) →
           ∃ o h l c, q.2 = [some o, some h, some l, some c, (none : Option Val)]) ∧
        (q.1 ∉ P.map (fun b => (some b.date : Option Val)) →
         q.1 ∈ V.map (fun b => (some b.date : Option Val)) →
           ∃ w, q.2 = [(none : Option Val), none, none, none, some w]) ∧
        (q.1 ∈ P.map (fun b => (some b.date : Option Val)) →
         q.1 ∈ V.map (fun b => (some b.date : Option Val)) →
           ∃ o h l c w, q.2 = [some o, some h, some l, some c, some w])) := by
  refine ⟨_, combined_frame_eq self P V now start_date end_date, rfl, rfl, ?_, ?_, ?_, ?_⟩
  · -- index dates = union of the two date sets
    intro d
    constructor
    · intro hd
      rcases List.mem_map.mp hd with ⟨r, hr, hkey⟩
      rcases mem_merged_rows.mp (mem_sortedRows.mp hr) with
        ⟨p, hp, _, rfl⟩ | ⟨p, v, hp, hv, _, rfl⟩ | ⟨v, hv, _, rfl⟩
      · rw [cellAt_priceOnlyRow] at hkey
        cases hkey
        exact Or.inl (List.mem_map_of_mem _ hp)
      · rw [cellAt_matchedRow] at hkey
        cases hkey
        exact Or.inl (List.mem_map_of_mem _ hp)
      · rw [cellAt_volOnlyRow] at hkey
        cases hkey
        exact Or.inr (List.mem_map_of_mem _ hv)
    · intro hd
      rcases hd with hd | hd
      · rcases List.mem_map.mp hd with ⟨p, hp, rfl⟩
        obtain ⟨r, hr, hkey⟩ := (merged_rows_key_coverage P V).1 p hp
        exact List.mem_map.mpr ⟨r, mem_sortedRows.mpr hr, hkey⟩
      · rcases List.mem_map.mp hd with ⟨v, hv, rfl⟩
        obtain ⟨r, hr, hkey⟩ := (merged_rows_key_coverage P V).2 v hv
        exact List.mem_map.mpr ⟨r, mem_sortedRows.mpr hr, hkey⟩
  · -- index sorted ascending
    refine List.Pairwise.map _ (fun a b h => h) ?_
    show ((sortedPairsOf P V).map Prod.snd).Pairwise
      (fun r1 r2 => cellLE (cellAt r1 0) (cellAt r2 0) = true)
    exact List.Pairwise.map _ (fun a b h => h) (sortedPairsOf_pairwise P V)
  · -- index and rows have equal length
    simp [List.length_map]
  · -- shape of each row by where its date occurs
    intro q hq
    rw [List.zip_map'] at hq
    rcases List.mem_map.mp hq with ⟨r, hr, rfl⟩
    have hr2 := mem_merged_rows.mp (mem_sortedRows.mp hr)
    refine ⟨?_, ?_, ?_⟩
    · intro _ hnv
      rcases hr2 with ⟨p, _, _, rfl⟩ | ⟨p, v, _, hv, hdd, rfl⟩ | ⟨v, hv, _, rfl⟩
      · rw [eraseIdx_priceOnlyRow]
        exact ⟨p.Open, p.High, p.Low, p.Close, rfl⟩
      · refine absurd ?_ hnv
        show cellAt (matchedRow p v) 0 ∈ _
        rw [cellAt_matchedRow, ← hdd]
        exact List.mem_map_of_mem _ hv
      · refine absurd ?_ hnv
        show cellAt (volOnlyRow v) 0 ∈ _
        rw [cellAt_volOnlyRow]
        exact List.mem_map_of_mem _ hv
    · intro hnp _
      rcases hr2 with ⟨p, hp, _, rfl⟩ | ⟨p, v, hp, _, _, rfl⟩ | ⟨v, _, _, rfl⟩
      · refine absurd ?_ hnp
        show cellAt (priceOnlyRow p) 0 ∈ _
        rw [cellAt_priceOnlyRow]
        exact List.mem_map_of_mem _ hp
      · refine absurd ?_ hnp
        show cellAt (matchedRow p v) 0 ∈ _
        rw [cellAt_matchedRow]
        exact List.mem_map_of_mem _ hp
      · rw [eraseIdx_volOnlyRow]
        exact ⟨v.Volume, rfl⟩
    · intro hp2 hv2
      rcases hr2 with ⟨p, _, hnov, rfl⟩ | ⟨p, v, _, _, _, rfl⟩ | ⟨v, _, hnop, rfl⟩
      · exfalso
        rw [show (cellAt (priceOnlyRow p) 0, (priceOnlyRow p).eraseIdx 0).1 =
            some p.date from rfl] at hv2
        rcases List.mem_map.mp hv2 with ⟨v, hv, hveq⟩
        have : v.date = p.date := by
          simpa using hveq
        exact hnov v hv this
      · rw [eraseIdx_matchedRow]
        exact ⟨p.Open, p.High, p.Low, p.Close, v.Volume, rfl⟩
      · exfalso
        rw [show (cellAt (volOnlyRow v) 0, (volOnlyRow v).eraseIdx 0).1 =
            some v.date from rfl] at hp2
        rcases List.mem_map.mp hp2 with ⟨p, hp, hpeq⟩
        have : p.date = v.date := by
          simpa using hpeq
        exact hnop p hp this

def samplePriceBars : List Bar :=
  [⟨1, 10, 11, 9, 10, 100, 0, 0⟩, ⟨2, 20, 21, 19, 20, 200, 0, 0⟩]

def sampleVolumeBars : List Bar :=
  [⟨2, 0, 0, 0, 0, 250, 0, 0⟩, ⟨4, 0, 0, 0, 0, 400, 0, 0⟩]

theorem get_combined_data_outer_join_witness :
    ∃ df : DataFrame,
      (get_combined_data ⟨"TSLA"⟩
          (histSeq [Except.ok samplePriceBars, Except.ok sampleVolumeBars] :
            Provider Nat Unit)
          20086 none none 0).2.2 = Except.ok df ∧
      df.indexName = some "Date" ∧
      df.columns = ["Open", "High", "Low", "Close", "Volume"] ∧
      (∀ d : Val, some d ∈ df.index ↔
        d ∈ samplePriceBars.map Bar.date ∨ d ∈ sampleVolumeBars.map Bar.date) ∧
      df.index.Pairwise (fun x y => cellLE x y = true) ∧
      df.index.length = df.rows.length ∧
      (∀ q ∈ df.index.zip df.rows,
        (q.1 ∈ samplePriceBars.map (fun b => (some b.date : Option Val)) →
         q.1 ∉ sampleVolumeBars.map (fun b => (some b.date : Option Val)) →
           ∃ o h l c, q.2 = [some o, some h, some l, some c, (none : Option Val)]) ∧
        (q.1 ∉ samplePriceBars.map (fun b => (some b.date : Option Val)) →
         q.1 ∈ sampleVolumeBars.map (fun b => (some b.date : Option Val)) →
           ∃ w, q.2 = [(none : Option Val), none, none, none, some w]) ∧
        (q.1 ∈ samplePriceBars.map (fun b => (some b.date : Option Val)) →
         q.1 ∈ sampleVolumeBars.map (fun b => (some b.date : Option Val)) →
           ∃ o h l c w, q.2 = [some o, some h, some l, some c, some w])) :=
  get_combined_data_outer_join ⟨"TSLA"⟩ samplePriceBars sampleVolumeBars 20086 none none

end StockAnalyzer
